import Mathlib

/-
  Shallow embedding of the hidmon crate (koenigbs18/hidmon).

  Source files embedded:
  - src/globals.rs   : the per-HidType global callback registry
                       (GlobalCallback::new, impl Drop for GlobalCallback)
  - src/windows.rs   : the registry-based trampolines
                       (LowLevelKeyboardProc, LowLevelMouseProc)
  - src/hid_monitor.rs : the older single-slot variant
                       (inner::KeyboardProc, inner::MouseProc,
                        HidMonitor::{hook, unhook, enable, disable}, Drop)

  Modelling conventions:
  - u64 registry keys are Nat (the claims do not depend on the bit width,
    only on equality of keys); the rng is an explicit list of successive
    draws, so the sampling loop of GlobalCallback::new becomes a total
    function that returns none when the supplied draw list is exhausted
    (the spec's theoretical-only non-termination risk).
  - HashMap<Key, V> is an association list with no duplicate keys; lookup
    is List.lookup, Entry::Vacant is a failed lookup, insert prepends,
    HashMap::remove keeps exactly the entries with a different key.
  - Callbacks are opaque identifiers (Nat); a trampoline invocation is
    recorded in an event trace (lock acquire/release, callback invocation,
    CallNextHookEx forwarding) so that ordering claims are statable.
  - OS collaborators (SetWindowsHookExW, UnhookWindowsHookEx,
    CallNextHookEx) are parameters: each embedded function takes the OS
    response as an argument and returns the list of OS calls it made.
-/

/-- HidType from src/hid_monitor.rs: closed enumeration Keyboard | Mouse. -/
inductive HidType
  | Keyboard
  | Mouse
deriving DecidableEq, Repr

/-- Registry keys: `type Key = u64` in src/globals.rs, modelled as Nat. -/
abbrev Key := Nat

/-- Callbacks are opaque; only their identity matters to the claims. -/
abbrev Callback := Nat

/-- CallbackMap from src/globals.rs: HashMap<Key, HidCallback>, modelled
as an association list whose key uniqueness is proved, not assumed. -/
abbrev CallbackMap := List (Key × Callback)

/-- `callback_map.contains_key(&k)` / the Entry::Vacant test. -/
def containsKey (m : CallbackMap) (k : Key) : Bool :=
  (m.lookup k).isSome

/-- Embeds the sampling loop of GlobalCallback::new (src/globals.rs:31-38):
draw keys from the rng until one is vacant in the map, insert there and
return the key. `draws` is the stream of successive rng.random::<u64>()
results; an exhausted stream returns none (the loop would still be
running), an occupied draw is skipped (resampling, never overwriting). -/
def insertLoop (draws : List Key) (m : CallbackMap) (cb : Callback) :
    Option (Key × CallbackMap) :=
  match draws with
  | [] => none
  | k :: ks =>
    if containsKey m k then insertLoop ks m cb
    else some (k, (k, cb) :: m)

/-- HashMap::remove: returns the removed value and the map without that
key, or none when the key is absent. -/
def hashRemove (m : CallbackMap) (k : Key) : Option (Callback × CallbackMap) :=
  match m.lookup k with
  | some v => some (v, m.filter fun p => p.1 != k)
  | none => none

/-- The conceptual registry removal performed by GlobalCallback's Drop
(src/globals.rs:48-52): remove the entry when the key is present,
otherwise leave the map unchanged. -/
def removeKey (m : CallbackMap) (k : Key) : CallbackMap :=
  if containsKey m k then m.filter (fun p => p.1 != k) else m

/-- GlobalCallback from src/globals.rs: the RAII registration handle
holding its HidType and its registry key. -/
structure GlobalCallback where
  hid_type : HidType
  key : Key
deriving DecidableEq, Repr

/-- Embeds impl Drop for GlobalCallback (src/globals.rs:42-54) acting on
the callback map selected by `hid_type`: if the key is present, call
HashMap::remove and .expect it returned an entry (none models that panic);
if absent, do nothing. -/
def gcDrop (gc : GlobalCallback) (m : CallbackMap) : Option CallbackMap :=
  if containsKey m gc.key then
    match hashRemove m gc.key with
    | some (_, m2) => some m2
    | none => none
  else some m

/-- A client-visible registry operation: a GlobalCallback::new insertion
(with its rng draw stream) or a GlobalCallback drop removal. -/
inductive RegOp
  | insert (draws : List Key) (cb : Callback)
  | remove (k : Key)

/-- Effect of one registry operation on the map (an insertion whose draw
stream ran out leaves the map unchanged). -/
def applyRegOp (m : CallbackMap) : RegOp → CallbackMap
  | RegOp.insert draws cb =>
    match insertLoop draws m cb with
    | some (_, m2) => m2
    | none => m
  | RegOp.remove k => removeKey m k

/-- The registry map after a sequence of operations from the empty map
(the LazyLock initial state). -/
def runRegOps (ops : List RegOp) : CallbackMap :=
  ops.foldl applyRegOp []

/-- No two entries of the map share a key. -/
def KeysNodup (m : CallbackMap) : Prop :=
  (m.map Prod.fst).Nodup

theorem lookup_none_of_containsKey_false {m : CallbackMap} {k : Key}
    (h : containsKey m k = false) : m.lookup k = none := by
  unfold containsKey at h
  exact Option.not_isSome_iff_eq_none.mp (by simp [h])

theorem not_mem_keys_of_lookup_none {m : CallbackMap} {k : Key}
    (h : m.lookup k = none) : k ∉ m.map Prod.fst := by
  induction m with
  | nil => simp
  | cons p ps ih =>
    simp only [List.lookup] at h
    cases hk : (k == p.1) with
    | true => rw [hk] at h; cases h
    | false =>
      rw [hk] at h
      simp only [List.map_cons, List.mem_cons]
      rintro (h1 | h2)
      · exact absurd (beq_iff_eq.mpr h1) (by simp [hk])
      · exact ih h h2

theorem insertLoop_some {draws : List Key} {m : CallbackMap} {cb : Callback}
    {k : Key} {m2 : CallbackMap}
    (h : insertLoop draws m cb = some (k, m2)) :
    containsKey m k = false ∧ m2 = (k, cb) :: m := by
  induction draws with
  | nil => simp [insertLoop] at h
  | cons a as ih =>
    unfold insertLoop at h
    cases hc : containsKey m a with
    | true => rw [hc] at h; simp at h; exact ih h
    | false =>
      rw [hc] at h
      simp at h
      obtain ⟨hk, hm⟩ := h
      subst hk; subst hm
      exact ⟨hc, rfl⟩

theorem keysNodup_filter {m : CallbackMap} (h : KeysNodup m)
    (f : Key × Callback → Bool) : KeysNodup (m.filter f) := by
  exact h.sublist ((List.filter_sublist m).map Prod.fst)

theorem keysNodup_removeKey {m : CallbackMap} (h : KeysNodup m) (k : Key) :
    KeysNodup (removeKey m k) := by
  unfold removeKey
  cases containsKey m k
  · simpa using h
  · simpa using keysNodup_filter h _

theorem keysNodup_applyRegOp {m : CallbackMap} (h : KeysNodup m) (op : RegOp) :
    KeysNodup (applyRegOp m op) := by
  cases op with
  | insert draws cb =>
    simp only [applyRegOp]
    cases hres : insertLoop draws m cb with
    | none => exact h
    | some r =>
      obtain ⟨k, m2⟩ := r
      obtain ⟨hfresh, hm2⟩ := insertLoop_some hres
      subst hm2
      refine List.Nodup.cons ?_ h
      exact not_mem_keys_of_lookup_none (lookup_none_of_containsKey_false hfresh)
  | remove k => exact keysNodup_removeKey h k

theorem keysNodup_foldl {m : CallbackMap} (h : KeysNodup m) (ops : List RegOp) :
    KeysNodup (ops.foldl applyRegOp m) := by
  induction ops generalizing m with
  | nil => exact h
  | cons op rest ih => exact ih (keysNodup_applyRegOp h op)

theorem keysNodup_runRegOps (ops : List RegOp) : KeysNodup (runRegOps ops) :=
  keysNodup_foldl (by simp [KeysNodup]) ops

/-- C1: over every sequence of GlobalCallback::new insertions and
GlobalCallback drop removals starting from the empty registry, the map
never holds two entries with the same key; and whenever the sampling loop
of GlobalCallback::new succeeds, the key it returns was absent from the
map and the new map is exactly the old map with the one new entry added,
so no occupied key is ever overwritten (collisions only resample). -/
theorem registry_keys_unique_insert_never_overwrites
    (ops : List RegOp) (draws : List Key) (cb : Callback)
    (k : Key) (m2 : CallbackMap)
    (h : insertLoop draws (runRegOps ops) cb = some (k, m2)) :
    KeysNodup (runRegOps ops) ∧
    containsKey (runRegOps ops) k = false ∧
    m2 = (k, cb) :: runRegOps ops ∧
    KeysNodup m2 := by
  obtain ⟨hfresh, hm2⟩ := insertLoop_some h
  refine ⟨keysNodup_runRegOps ops, hfresh, hm2, ?_⟩
  subst hm2
  exact List.Nodup.cons
    (not_mem_keys_of_lookup_none (lookup_none_of_containsKey_false hfresh))
    (keysNodup_runRegOps ops)

/-- C1 witness: two insertions, the second drawing a colliding key (5)
first and resampling to 9, plus a removal of an absent key. -/
theorem registry_keys_unique_witness :
    KeysNodup (runRegOps [RegOp.insert [5] 7, RegOp.remove 3]) ∧
    containsKey (runRegOps [RegOp.insert [5] 7, RegOp.remove 3]) 9 = false ∧
    [(9, 8), (5, 7)] = (9, 8) :: runRegOps [RegOp.insert [5] 7, RegOp.remove 3] ∧
    KeysNodup [(9, 8), (5, 7)] :=
  registry_keys_unique_insert_never_overwrites
    [RegOp.insert [5] 7, RegOp.remove 3] [5, 9] 8 9 [(9, 8), (5, 7)] (by decide)

theorem lookup_filter_self (m : CallbackMap) (k : Key) :
    (m.filter fun p => p.1 != k).lookup k = none := by
  induction m with
  | nil => rfl
  | cons p ps ih =>
    by_cases hp : p.1 = k
    · simp [List.filter_cons, hp, ih]
    · simp only [List.filter_cons]
      have hb : (p.1 != k) = true := by simp [bne_iff_ne, hp]
      rw [hb]
      simp only [List.lookup]
      have hk : (k == p.1) = false := by simp [Ne.symm hp]
      rw [hk]
      exact ih

theorem gcDrop_eq_removeKey (gc : GlobalCallback) (m : CallbackMap) :
    gcDrop gc m = some (removeKey m gc.key) := by
  unfold gcDrop removeKey
  cases hc : containsKey m gc.key with
  | false => simp
  | true =>
    simp only [if_pos rfl, if_true]
    unfold hashRemove
    cases hl : m.lookup gc.key with
    | none =>
      exfalso
      unfold containsKey at hc
      rw [hl] at hc
      cases hc
    | some v => simp

/-- C6: dropping a GlobalCallback performs exactly one registry removal,
at its own key (its whole effect is one application of `removeKey` to its
own key, and the guarded .expect can never panic, so the result is always
`some`); removal of an absent key is a no-op that leaves the map
unchanged, and removal is idempotent. -/
theorem gc_drop_removes_own_key_once (gc : GlobalCallback) (m : CallbackMap) :
    gcDrop gc m = some (removeKey m gc.key) ∧
    (containsKey m gc.key = false → removeKey m gc.key = m) ∧
    removeKey (removeKey m gc.key) gc.key = removeKey m gc.key := by
  refine ⟨gcDrop_eq_removeKey gc m, ?_, ?_⟩
  · intro h
    simp [removeKey, h]
  · cases hc : containsKey m gc.key with
    | false => simp [removeKey, hc]
    | true =>
      have hfc : containsKey (m.filter fun p => p.1 != gc.key) gc.key = false := by
        simp [containsKey, lookup_filter_self]
      simp [removeKey, hc, hfc]

/-- C6 witness: a handle whose key (3) is absent from the map. -/
theorem gc_drop_removes_own_key_once_witness :
    gcDrop ⟨HidType.Keyboard, 3⟩ [(5, 7)] = some (removeKey [(5, 7)] 3) ∧
    (containsKey [(5, 7)] 3 = false → removeKey [(5, 7)] 3 = [(5, 7)]) ∧
    removeKey (removeKey [(5, 7)] 3) 3 = removeKey [(5, 7)] 3 :=
  gc_drop_removes_own_key_once ⟨HidType.Keyboard, 3⟩ [(5, 7)]

/-- One observable step of a trampoline invocation: taking or releasing a
registry lock, invoking one registered callback, or calling the OS
CallNextHookEx forwarding function. -/
inductive TEvent
  | lockAcquire
  | invoke (cb : Callback)
  | lockRelease
  | forward
deriving DecidableEq, Repr

/-- Embeds LowLevelKeyboardProc (src/windows.rs:16-30): when ncode < 0,
forward to CallNextHookEx immediately; otherwise lock the keyboard
registry, invoke every entry while iterating the locked map, drop the
guard, then forward. The trace records the steps in program order; the
second component is the returned LRESULT, `next` models CallNextHookEx. -/
def lowLevelKeyboardProc (m : CallbackMap) (next : Int → Nat → Nat → Int)
    (ncode : Int) (w l : Nat) : List TEvent × Int :=
  if ncode < 0 then ([TEvent.forward], next ncode w l)
  else
    ((TEvent.lockAcquire :: ((m.map fun p => TEvent.invoke p.2) ++ [TEvent.lockRelease]))
       ++ [TEvent.forward],
     next ncode w l)

/-- Embeds LowLevelMouseProc (src/windows.rs:32-46): same shape as the
keyboard trampoline, over the mouse registry. -/
def lowLevelMouseProc (m : CallbackMap) (next : Int → Nat → Nat → Int)
    (ncode : Int) (w l : Nat) : List TEvent × Int :=
  if ncode < 0 then ([TEvent.forward], next ncode w l)
  else
    ((TEvent.lockAcquire :: ((m.map fun p => TEvent.invoke p.2) ++ [TEvent.lockRelease]))
       ++ [TEvent.forward],
     next ncode w l)

/-- Embeds inner::KeyboardProc (src/hid_monitor.rs:21-29): unconditionally
lock the single global keyboard slot, copy the Option out (the guard is a
temporary, so the lock is released before the call), invoke the callback
if one is set (regardless of nCode), then forward to CallNextHookEx. -/
def innerKeyboardProc (slot : Option Callback) (next : Int → Nat → Nat → Int)
    (ncode : Int) (w l : Nat) : List TEvent × Int :=
  (([TEvent.lockAcquire, TEvent.lockRelease] ++
      (match slot with
       | some cb => [TEvent.invoke cb]
       | none => [])) ++ [TEvent.forward],
   next ncode w l)

/-- Embeds inner::MouseProc (src/hid_monitor.rs:31-39): same shape as
inner::KeyboardProc, over the mouse slot. -/
def innerMouseProc (slot : Option Callback) (next : Int → Nat → Nat → Int)
    (ncode : Int) (w l : Nat) : List TEvent × Int :=
  (([TEvent.lockAcquire, TEvent.lockRelease] ++
      (match slot with
       | some cb => [TEvent.invoke cb]
       | none => [])) ++ [TEvent.forward],
   next ncode w l)

/-- The callbacks a trace invoked, in order. -/
def invokedCallbacks (tr : List TEvent) : List Callback :=
  tr.filterMap fun e =>
    match e with
    | TEvent.invoke cb => some cb
    | _ => none

/-- C2 (code evaluation at the failing input): with a negative event code,
the registry trampolines of src/windows.rs forward immediately without
touching the registry, but inner::KeyboardProc and inner::MouseProc of
src/hid_monitor.rs still read their global callback slot and invoke the
stored callback before forwarding — they have no ncode < 0 fast path. -/
theorem trampoline_negative_ncode_eval :
    (lowLevelKeyboardProc [(1, 42)] (fun _ _ _ => 0) (-1) 0 0).1 = [TEvent.forward] ∧
    (lowLevelMouseProc [(1, 42)] (fun _ _ _ => 0) (-1) 0 0).1 = [TEvent.forward] ∧
    (innerKeyboardProc (some 42) (fun _ _ _ => 0) (-1) 0 0).1
      = [TEvent.lockAcquire, TEvent.lockRelease, TEvent.invoke 42, TEvent.forward] ∧
    (innerMouseProc (some 42) (fun _ _ _ => 0) (-1) 0 0).1
      = [TEvent.lockAcquire, TEvent.lockRelease, TEvent.invoke 42, TEvent.forward] := by
  refine ⟨by decide, by decide, rfl, rfl⟩

theorem getLast?_cons_append_two (a b c : TEvent) (X : List TEvent) :
    (a :: (X ++ [b, c])).getLast? = some c := by
  have h : a :: (X ++ [b, c]) = (a :: (X ++ [b])) ++ [c] := by simp
  rw [h, List.getLast?_concat]

theorem count_forward_map_invoke (m : CallbackMap) :
    ((m.map fun p => TEvent.invoke p.2).count TEvent.forward) = 0 := by
  induction m with
  | nil => rfl
  | cons p ps ih => simp [List.count_cons, ih]

/-- C7: every invocation of any of the four trampolines — any ncode,
including with an empty registry or an unset slot — calls CallNextHookEx
exactly once, as the last step after local dispatch has completed, and
returns that call's result unchanged. -/
theorem trampoline_forwards_exactly_once
    (m : CallbackMap) (slot : Option Callback) (next : Int → Nat → Nat → Int)
    (ncode : Int) (w l : Nat) :
    ((lowLevelKeyboardProc m next ncode w l).1.count TEvent.forward = 1 ∧
     (lowLevelKeyboardProc m next ncode w l).1.getLast? = some TEvent.forward ∧
     (lowLevelKeyboardProc m next ncode w l).2 = next ncode w l) ∧
    ((lowLevelMouseProc m next ncode w l).1.count TEvent.forward = 1 ∧
     (lowLevelMouseProc m next ncode w l).1.getLast? = some TEvent.forward ∧
     (lowLevelMouseProc m next ncode w l).2 = next ncode w l) ∧
    ((innerKeyboardProc slot next ncode w l).1.count TEvent.forward = 1 ∧
     (innerKeyboardProc slot next ncode w l).1.getLast? = some TEvent.forward ∧
     (innerKeyboardProc slot next ncode w l).2 = next ncode w l) ∧
    ((innerMouseProc slot next ncode w l).1.count TEvent.forward = 1 ∧
     (innerMouseProc slot next ncode w l).1.getLast? = some TEvent.forward ∧
     (innerMouseProc slot next ncode w l).2 = next ncode w l) := by
  refine ⟨⟨?_, ?_, ?_⟩, ⟨?_, ?_, ?_⟩, ⟨?_, ?_, ?_⟩, ⟨?_, ?_, ?_⟩⟩ <;>
    first
      | (by_cases h : ncode < 0 <;>
          simp [lowLevelKeyboardProc, lowLevelMouseProc, h, List.count_append,
            List.count_cons, count_forward_map_invoke, List.getLast?_concat,
            getLast?_cons_append_two])
      | (cases slot <;>
          simp [innerKeyboardProc, innerMouseProc, List.count_append,
            List.count_cons, List.getLast?_concat])

/-- C10 counterexample: with one registered callback and ncode = 0, the
keyboard trampoline's trace is lock-acquire, invoke, lock-release,
forward: the callback invocation (index 1) happens strictly before the
registry lock is released (index 2), so the callback runs while the
trampoline holds the registry lock — the list is not copied out and the
lock is not released before invocation. -/
theorem dispatch_copy_then_invoke_counterexample :
    (lowLevelKeyboardProc [(1, 42)] (fun _ _ _ => 0) 0 0 0).1
      = [TEvent.lockAcquire, TEvent.invoke 42, TEvent.lockRelease, TEvent.forward] ∧
    (lowLevelKeyboardProc [(1, 42)] (fun _ _ _ => 0) 0 0 0).1.get? 1
      = some (TEvent.invoke 42) ∧
    (lowLevelKeyboardProc [(1, 42)] (fun _ _ _ => 0) 0 0 0).1.get? 2
      = some TEvent.lockRelease := by
  refine ⟨by decide, by decide, by decide⟩

theorem invoke_before_release_aux (X : List TEvent) (i : Nat) (cb : Callback)
    (h : (TEvent.lockAcquire :: (X ++ [TEvent.lockRelease, TEvent.forward])).get? i
           = some (TEvent.invoke cb)) :
    i < X.length + 1 ∧
    (TEvent.lockAcquire :: (X ++ [TEvent.lockRelease, TEvent.forward])).get? (X.length + 1)
      = some TEvent.lockRelease := by
  constructor
  · by_contra hge
    push_neg at hge
    cases i with
    | zero => simp at h
    | succ n =>
      have hn : X.length ≤ n := by omega
      have h2 : (X ++ [TEvent.lockRelease, TEvent.forward]).get? n
          = some (TEvent.invoke cb) := h
      rw [List.get?_append_right hn] at h2
      rcases hd : n - X.length with _ | _ | d <;> rw [hd] at h2 <;> simp at h2
  · have h3 : (TEvent.lockAcquire ::
        (X ++ [TEvent.lockRelease, TEvent.forward])).get? (X.length + 1)
        = (X ++ [TEvent.lockRelease, TEvent.forward]).get? X.length := rfl
    rw [h3, List.get?_append_right (le_refl X.length), Nat.sub_self]
    rfl

/-- C10 amended: the registry trampolines do not copy the callback list
out; for every dispatching invocation (ncode not negative) the trace
starts with the single lock acquisition and every callback invocation
occurs strictly before the lock release, i.e. every callback runs while
the trampoline holds the registry lock, which is released only after the
last callback returns. -/
theorem dispatch_invokes_while_lock_held (m : CallbackMap)
    (next : Int → Nat → Nat → Int) (ncode : Int) (w l : Nat) (h : ¬ ncode < 0) :
    ((lowLevelKeyboardProc m next ncode w l).1.get? 0 = some TEvent.lockAcquire ∧
     ∀ i cb, (lowLevelKeyboardProc m next ncode w l).1.get? i = some (TEvent.invoke cb) →
       ∃ j, i < j ∧
         (lowLevelKeyboardProc m next ncode w l).1.get? j = some TEvent.lockRelease) ∧
    ((lowLevelMouseProc m next ncode w l).1.get? 0 = some TEvent.lockAcquire ∧
     ∀ i cb, (lowLevelMouseProc m next ncode w l).1.get? i = some (TEvent.invoke cb) →
       ∃ j, i < j ∧
         (lowLevelMouseProc m next ncode w l).1.get? j = some TEvent.lockRelease) := by
  have htrK : (lowLevelKeyboardProc m next ncode w l).1
      = TEvent.lockAcquire ::
          ((m.map fun p => TEvent.invoke p.2) ++ [TEvent.lockRelease, TEvent.forward]) := by
    simp [lowLevelKeyboardProc, h]
  have htrM : (lowLevelMouseProc m next ncode w l).1
      = TEvent.lockAcquire ::
          ((m.map fun p => TEvent.invoke p.2) ++ [TEvent.lockRelease, TEvent.forward]) := by
    simp [lowLevelMouseProc, h]
  rw [htrK, htrM]
  refine ⟨⟨rfl, ?_⟩, ⟨rfl, ?_⟩⟩ <;>
    · intro i cb hi
      obtain ⟨hlt, hrel⟩ := invoke_before_release_aux _ i cb hi
      exact ⟨(m.map fun p => TEvent.invoke p.2).length + 1, hlt, hrel⟩

/-- C10 amended witness: in the concrete one-callback dispatch, the lock
release (which the theorem locates after the invocation at index 1)
indeed occurs at a strictly later index. -/
theorem dispatch_invokes_while_lock_held_witness :
    ∃ j, 1 < j ∧
      (lowLevelKeyboardProc [(1, 42)] (fun _ _ _ => 0) 0 0 0).1.get? j
        = some TEvent.lockRelease :=
  (dispatch_invokes_while_lock_held [(1, 42)] (fun _ _ _ => 0) 0 0 0
    (by decide)).1.2 1 42 (by decide)

/-- HHOOK from the windows crate: an opaque hook token; HHOOK::default()
is the null/invalid sentinel, modelled as 0. -/
abbrev HHook := Nat

/-- HHOOK::is_invalid: the token is the null sentinel. -/
def HHook.isInvalid (h : HHook) : Bool := h == 0

/-- Opaque OS error payload (windows::core::Error). -/
abbrev OsError := Nat

/-- One call made to the OS hook facility. -/
inductive OsCall
  | install (t : HidType)
  | uninstall (h : HHook)
deriving DecidableEq, Repr

/-- The two per-type global callback slots of the inner module of
src/hid_monitor.rs (GLOBAL_KEYBD_CALLBACK, GLOBAL_MOUSE_CALLBACK). -/
structure GlobalSlots where
  keybd : Option Callback
  mouse : Option Callback
deriving DecidableEq, Repr

/-- inner::set_global_callback (src/hid_monitor.rs:57-62): Option::replace
— the slot is overwritten with the new callback unconditionally. -/
def setGlobalCallback (s : GlobalSlots) (t : HidType) (cb : Callback) : GlobalSlots :=
  match t with
  | HidType.Keyboard => { s with keybd := some cb }
  | HidType.Mouse => { s with mouse := some cb }

/-- HidMonitor from src/hid_monitor.rs: one stored hook token per HidType;
Default gives both the invalid sentinel. -/
structure HidMonitor where
  keybd_hook : HHook
  mouse_hook : HHook
deriving DecidableEq, Repr

def HidMonitor.default : HidMonitor := ⟨0, 0⟩

/-- The token stored for a given HidType. -/
def HidMonitor.hookOf (self : HidMonitor) (t : HidType) : HHook :=
  match t with
  | HidType.Keyboard => self.keybd_hook
  | HidType.Mouse => self.mouse_hook

/-- Embeds HidMonitor::hook (src/hid_monitor.rs:93-100): call
SetWindowsHookExW once (its outcome is the parameter `osResp`); on
success store the callback in the type's global slot and return the new
token, on failure propagate. Returns the OS calls made, the slot state
and the result. -/
def HidMonitor.hook (t : HidType) (cb : Callback) (slots : GlobalSlots)
    (osResp : Except OsError HHook) :
    List OsCall × GlobalSlots × Except OsError HHook :=
  ([OsCall.install t],
   match osResp with
   | Except.error e => (slots, Except.error e)
   | Except.ok h => (setGlobalCallback slots t cb, Except.ok h))

/-- Embeds HidMonitor::enable (src/hid_monitor.rs:167-174): call
HidMonitor::hook unconditionally (there is no Installed-state check); on
success overwrite the stored token for `t`, on failure return the error
leaving the monitor unchanged. -/
def HidMonitor.enable (self : HidMonitor) (t : HidType) (cb : Callback)
    (slots : GlobalSlots) (osResp : Except OsError HHook) :
    List OsCall × GlobalSlots × HidMonitor × Option OsError :=
  match HidMonitor.hook t cb slots osResp with
  | (calls, slots2, Except.error e) => (calls, slots2, self, some e)
  | (calls, slots2, Except.ok h) =>
    (calls, slots2,
     (match t with
      | HidType.Keyboard => { self with keybd_hook := h }
      | HidType.Mouse => { self with mouse_hook := h }),
     none)

/-- Two consecutive enable calls for the same HidType with no intervening
disable; the OS responses to the first and second install call are `r1`
and `r2`. Returns the concatenated OS-call trace and the final state. -/
def HidMonitor.enableTwice (self : HidMonitor) (t : HidType) (cb : Callback)
    (slots : GlobalSlots) (r1 r2 : Except OsError HHook) :
    List OsCall × GlobalSlots × HidMonitor × Option OsError :=
  match HidMonitor.enable self t cb slots r1 with
  | (c1, s1, m1, _) =>
    match HidMonitor.enable m1 t cb s1 r2 with
    | (c2, s2, m2, e2) => (c1 ++ c2, s2, m2, e2)

/-- Embeds HidMonitor::disable (src/hid_monitor.rs:182-194): call
UnhookWindowsHookEx on the stored token unconditionally (no state check);
on OS failure (`osResp = some e`) the `?` operator returns early, so the
stored token is NOT reset; only on success is it reset to the invalid
sentinel. Returns the OS calls made, the post-state and the error. -/
def HidMonitor.disable (self : HidMonitor) (t : HidType) (osResp : Option OsError) :
    List OsCall × HidMonitor × Option OsError :=
  match t with
  | HidType.Keyboard =>
    ([OsCall.uninstall self.keybd_hook],
     match osResp with
     | some e => (self, some e)
     | none => ({ self with keybd_hook := 0 }, none))
  | HidType.Mouse =>
    ([OsCall.uninstall self.mouse_hook],
     match osResp with
     | some e => (self, some e)
     | none => ({ self with mouse_hook := 0 }, none))

/-- Embeds impl Drop for HidMonitor (src/hid_monitor.rs:197-206): for each
of the two hooks, call UnhookWindowsHookEx only when the stored token is
not the invalid sentinel; `let _ =` discards the OS outcomes (`respK`,
`respM`), so drop returns only the list of calls it made and can never
surface a failure. -/
def HidMonitor.dropRun (self : HidMonitor) (_respK _respM : Option OsError) :
    List OsCall :=
  (if !HHook.isInvalid self.keybd_hook then [OsCall.uninstall self.keybd_hook] else [])
    ++ (if !HHook.isInvalid self.mouse_hook then [OsCall.uninstall self.mouse_hook] else [])

/-- C3 counterexample: enabling the Keyboard hook twice in a row on a
fresh monitor (both OS installs succeeding, returning tokens 1 then 2)
performs two OS install calls, not one, and the second call is not a
no-op: it overwrites the stored token with the second OS token. -/
theorem enable_twice_counterexample :
    (HidMonitor.enableTwice HidMonitor.default HidType.Keyboard 42 ⟨none, none⟩
        (Except.ok 1) (Except.ok 2)).1
      = [OsCall.install HidType.Keyboard, OsCall.install HidType.Keyboard] ∧
    (HidMonitor.enableTwice HidMonitor.default HidType.Keyboard 42 ⟨none, none⟩
        (Except.ok 1) (Except.ok 2)).1.length ≠ 1 ∧
    (HidMonitor.enableTwice HidMonitor.default HidType.Keyboard 42 ⟨none, none⟩
        (Except.ok 1) (Except.ok 2)).2.2.1.keybd_hook = 2 := by
  refine ⟨rfl, by decide, rfl⟩

/-- C3 amended: enable(type) has no Installed-state check — every call
performs exactly one OS install call, so two consecutive enables perform
exactly two OS install calls for that type, and when both succeed the
stored token is the one returned by the second install. -/
theorem enable_always_installs (self : HidMonitor) (t : HidType) (cb : Callback)
    (slots : GlobalSlots) (r1 r2 : Except OsError HHook) :
    (HidMonitor.enable self t cb slots r1).1 = [OsCall.install t] ∧
    (HidMonitor.enableTwice self t cb slots r1 r2).1
      = [OsCall.install t, OsCall.install t] := by
  constructor
  · cases r1 <;> rfl
  · cases r1 <;> cases r2 <;> cases t <;> rfl

/-- C4 counterexample: on a fresh monitor the Keyboard state is
Uninstalled (the stored token is the invalid sentinel 0), yet disable
still performs one OS uninstall call — with the invalid sentinel as
argument — rather than zero; the OS outcome (here an error) is
propagated, so the call is not a no-op success. -/
theorem disable_uninstalled_counterexample :
    HHook.isInvalid (HidMonitor.default.hookOf HidType.Keyboard) = true ∧
    (HidMonitor.default.disable HidType.Keyboard (some 5)).1 = [OsCall.uninstall 0] ∧
    (HidMonitor.default.disable HidType.Keyboard (some 5)).1.length ≠ 0 ∧
    (HidMonitor.default.disable HidType.Keyboard (some 5)).2.2 = some 5 := by
  refine ⟨rfl, rfl, by decide, rfl⟩

/-- C4 amended: disable(type) performs exactly one OS uninstall call on
every invocation, passing whatever token is stored for that type (the
invalid sentinel included — there is no Uninstalled-state no-op), and
returns the OS outcome unchanged. -/
theorem disable_always_uninstalls (self : HidMonitor) (t : HidType)
    (osResp : Option OsError) :
    (self.disable t osResp).1 = [OsCall.uninstall (self.hookOf t)] ∧
    (self.disable t osResp).2.2 = osResp := by
  cases t <;> cases osResp <;> exact ⟨rfl, rfl⟩

/-- C5 counterexample: a monitor whose Keyboard hook is installed (token
5); the OS uninstall fails with error 7. disable propagates the error,
but the local bookkeeping does NOT advance: the stored token is still 5,
not the invalid sentinel — the monitor is left stuck Installed. -/
theorem disable_failure_counterexample :
    ((HidMonitor.mk 5 0).disable HidType.Keyboard (some 7)).2.2 = some 7 ∧
    ((HidMonitor.mk 5 0).disable HidType.Keyboard (some 7)).2.1.keybd_hook = 5 ∧
    ¬ HHook.isInvalid ((HidMonitor.mk 5 0).disable HidType.Keyboard
        (some 7)).2.1.keybd_hook = true := by
  refine ⟨rfl, rfl, by decide⟩

/-- C5 amended: when the OS uninstall call made by disable(type) fails,
the error is propagated to the caller and the monitor is returned
completely unchanged (the `?` operator returns before the token reset),
so the stored hook token keeps its old value; only a successful uninstall
resets the token to the invalid sentinel. -/
theorem disable_failure_keeps_token (self : HidMonitor) (t : HidType) (e : OsError) :
    (self.disable t (some e)).2.2 = some e ∧
    (self.disable t (some e)).2.1 = self ∧
    (self.disable t none).2.1.hookOf t = 0 := by
  cases t <;> exact ⟨rfl, rfl, rfl⟩

/-- C8: HidMonitor's Drop makes exactly the OS uninstall calls for the
hooks whose stored tokens are still valid (a call appears in the trace
iff it uninstalls a stored valid token), and its behaviour is identical
whatever the OS uninstall outcomes are — errors during teardown are
discarded and never propagated (drop returns no error value at all). -/
theorem monitor_drop_uninstalls_valid_hooks (self : HidMonitor)
    (respK respM : Option OsError) :
    HidMonitor.dropRun self respK respM = HidMonitor.dropRun self none none ∧
    ∀ c, c ∈ HidMonitor.dropRun self respK respM ↔
      ((c = OsCall.uninstall self.keybd_hook ∧ HHook.isInvalid self.keybd_hook = false) ∨
       (c = OsCall.uninstall self.mouse_hook ∧ HHook.isInvalid self.mouse_hook = false)) := by
  refine ⟨rfl, ?_⟩
  intro c
  unfold HidMonitor.dropRun
  cases hk : HHook.isInvalid self.keybd_hook <;>
    cases hm : HHook.isInvalid self.mouse_hook <;>
      simp [hk, hm]

theorem invokedCallbacks_map_invoke (m : CallbackMap) (rest : List TEvent) :
    invokedCallbacks ((m.map fun p => TEvent.invoke p.2) ++ rest)
      = m.map Prod.snd ++ invokedCallbacks rest := by
  induction m with
  | nil => rfl
  | cons p ps ih =>
    simp only [List.map_cons, List.cons_append, invokedCallbacks,
      List.filterMap_cons] at *
    rw [ih]

theorem invoked_dispatch (m : CallbackMap) (next : Int → Nat → Nat → Int)
    (ncode : Int) (w l : Nat) (h : ¬ ncode < 0) :
    invokedCallbacks (lowLevelMouseProc m next ncode w l).1 = m.map Prod.snd := by
  have htr : (lowLevelMouseProc m next ncode w l).1
      = TEvent.lockAcquire ::
          ((m.map fun p => TEvent.invoke p.2) ++ [TEvent.lockRelease, TEvent.forward]) := by
    simp [lowLevelMouseProc, h]
  rw [htr]
  have hcons : invokedCallbacks (TEvent.lockAcquire ::
      ((m.map fun p => TEvent.invoke p.2) ++ [TEvent.lockRelease, TEvent.forward]))
      = invokedCallbacks
          ((m.map fun p => TEvent.invoke p.2) ++ [TEvent.lockRelease, TEvent.forward]) := rfl
  rw [hcons, invokedCallbacks_map_invoke]
  simp [invokedCallbacks]

/-- Modelled from the spec: the registry-based HidMonitor variant that
src/main.rs exercises (`add_callback(type, cb)` followed by
`enable(type)`) is not under src/ — only its caller (main.rs) and its
collaborators, the registry of src/globals.rs and the trampolines of
src/windows.rs, are. Per spec section 4.3, `enable` inserts each callback
known to the monitor into the global registry via GlobalCallback::new and
keeps the returned registration handle: this models the insertion of one
known callback, returning the handle's key and the updated registry map
of that HidType (insertLoop is the real embedded GlobalCallback::new
sampling loop). -/
def specMonitorEnableOne (cb : Callback) (draws : List Key) (m : CallbackMap) :
    Option (Key × CallbackMap) :=
  insertLoop draws m cb

/-- Modelled from the spec: per spec section 4.3, `disable` drops every
registration handle held by this monitor for the type; each handle's drop
performs the registry removal of its own key (removeKey is the real
embedded GlobalCallback Drop effect from src/globals.rs). -/
def specMonitorDisable (handles : List Key) (m : CallbackMap) : CallbackMap :=
  handles.foldl removeKey m

/-- C9: two monitors register distinct callbacks for the same HidType in
the shared registry (the second GlobalCallback::new sampling on the map
left by the first); every event dispatched by that type's trampoline
with a non-negative code invokes both callbacks (registry fan-out), and
the first monitor's disable removes exactly its own registration: the
second monitor's entry stays in the registry and its callback is still
invoked (and the first one no longer) by later events. -/
theorem monitor_isolation_fanout
    (cb1 cb2 : Callback) (d1 d2 : List Key) (k1 k2 : Key) (m1 m2 : CallbackMap)
    (next : Int → Nat → Nat → Int) (ncode : Int) (w l : Nat)
    (hn : ¬ ncode < 0) (hne : cb1 ≠ cb2)
    (h1 : specMonitorEnableOne cb1 d1 [] = some (k1, m1))
    (h2 : specMonitorEnableOne cb2 d2 m1 = some (k2, m2)) :
    cb1 ∈ invokedCallbacks (lowLevelMouseProc m2 next ncode w l).1 ∧
    cb2 ∈ invokedCallbacks (lowLevelMouseProc m2 next ncode w l).1 ∧
    specMonitorDisable [k1] m2 = [(k2, cb2)] ∧
    cb2 ∈ invokedCallbacks
      (lowLevelMouseProc (specMonitorDisable [k1] m2) next ncode w l).1 ∧
    cb1 ∉ invokedCallbacks
      (lowLevelMouseProc (specMonitorDisable [k1] m2) next ncode w l).1 := by
  obtain ⟨hc1, hm1⟩ := insertLoop_some h1
  obtain ⟨hc2, hm2⟩ := insertLoop_some h2
  subst hm1
  subst hm2
  have hne21 : k2 ≠ k1 := by
    intro he
    subst he
    simp [containsKey, List.lookup] at hc2
  have hb12 : (k1 == k2) = false := beq_eq_false_iff_ne.mpr (Ne.symm hne21)
  have hb21 : (k2 == k1) = false := beq_eq_false_iff_ne.mpr hne21
  have hdis : specMonitorDisable [k1] ((k2, cb2) :: (k1, cb1) :: []) = [(k2, cb2)] := by
    simp [specMonitorDisable, removeKey, containsKey, List.lookup, List.filter,
      bne, hb12, hb21]
  have hi2 := invoked_dispatch ((k2, cb2) :: (k1, cb1) :: []) next ncode w l hn
  have hi3 := invoked_dispatch [(k2, cb2)] next ncode w l hn
  refine ⟨?_, ?_, hdis, ?_, ?_⟩
  · rw [hi2]; simp
  · rw [hi2]; simp
  · rw [hdis, hi3]; simp
  · rw [hdis, hi3]; simp [hne]

/-- C9 witness: monitor 1 registers callback 10 (drawing key 1), monitor
2 registers callback 20 (its first draw 1 collides and is resampled to
2); both are invoked by a dispatch at ncode 0, and after monitor 1's
disable only callback 20 remains invoked. -/
theorem monitor_isolation_fanout_witness :
    10 ∈ invokedCallbacks
      (lowLevelMouseProc [(2, 20), (1, 10)] (fun _ _ _ => 0) 0 0 0).1 ∧
    20 ∈ invokedCallbacks
      (lowLevelMouseProc [(2, 20), (1, 10)] (fun _ _ _ => 0) 0 0 0).1 ∧
    specMonitorDisable [1] [(2, 20), (1, 10)] = [(2, 20)] ∧
    20 ∈ invokedCallbacks
      (lowLevelMouseProc (specMonitorDisable [1] [(2, 20), (1, 10)])
        (fun _ _ _ => 0) 0 0 0).1 ∧
    10 ∉ invokedCallbacks
      (lowLevelMouseProc (specMonitorDisable [1] [(2, 20), (1, 10)])
        (fun _ _ _ => 0) 0 0 0).1 :=
  monitor_isolation_fanout 10 20 [1] [1, 2] 1 2 [(1, 10)] [(2, 20), (1, 10)]
    (fun _ _ _ => 0) 0 0 0 (by decide) (by decide) (by decide) (by decide)
